import Mathlib

/-
  Verification of the kube-machine repository against its specification.

  The development shallowly embeds the two components of the repository:
  * the node-record store (package `nodestore`), in two variants:
    - the Kubernetes-annotation-backed variant (`k8s...` definitions),
    - the file-backed variant under `pkg/nodestore` (`pkg...` definitions);
  * the kubelet provisioner decorator (package `detector`).

  External effects (the Kubernetes API client, the filesystem, the SSH
  transport, `ioutil.ReadFile`) are modelled by explicit state passing:
  a `World` for the cluster, an `Fs` plus an `FsOp` trace for the
  filesystem, and a `ProvEnv` of response functions for the provisioner.
  External routines the code delegates to (`json.MarshalIndent`,
  `host.MigrateHost`) are taken as parameters of the operations that call
  them, so theorems quantify over their behaviour.
-/

namespace KubeMachine

/-! ## String-keyed maps (Go `map[string]string`) -/

/-- Association-list model of a Go `map[string]string`: lookup. -/
def mapLookup : List (String × String) → String → Option String
  | [], _ => none
  | (k', v') :: rest, k => if k' = k then some v' else mapLookup rest k

/-- Association-list model of a Go `map[string]string`: insert/overwrite. -/
def mapInsert : List (String × String) → String → String → List (String × String)
  | [], k, v => [(k, v)]
  | (k', v') :: rest, k, v =>
    if k' = k then (k, v) :: rest else (k', v') :: mapInsert rest k v

/-- Association-list model of a Go `map[string]string`: key removal. -/
def mapRemove : List (String × String) → String → List (String × String)
  | [], _ => []
  | (k', v') :: rest, k =>
    if k' = k then mapRemove rest k else (k', v') :: mapRemove rest k

/-! ## Errors -/

/-- Kubernetes API errors as the code observes them: the only predicate the
code ever applies to a client error is `errors.IsNotFound`. -/
inductive K8sErr where
  | notFound
  | other (msg : String)
deriving DecidableEq, Repr

/-- Model of `k8s.io/apimachinery/pkg/api/errors.IsNotFound`. -/
def K8sErr.isNotFound : K8sErr → Bool
  | .notFound => true
  | .other _ => false

/-- Go `error` values produced or propagated by the repository's code. -/
inductive GoErr where
  /-- a Kubernetes client error returned to the caller as-is -/
  | k8s (e : K8sErr)
  /-- Model of `mcnerror.ErrHostDoesNotExist{Name: name}` -/
  | hostDoesNotExist (name : String)
  /-- Model of `os.ErrNotExist` -/
  | fileNotExist
  /-- the `text/template` error for executing a template that was never
  parsed: `template: %q is an incomplete or empty template` -/
  | templateIncomplete (name : String)
  /-- Model of `fmt.Errorf("<ctx>: %s", inner)`: a new error embedding the inner one -/
  | wrapped (ctx : String) (inner : GoErr)
  /-- Model of `fmt.Errorf("Failed to run SSH command (error: %v): %v", err, out)` -/
  | sshFailed (inner : GoErr)
  /-- any other error (I/O, marshalling, ...) -/
  | other (msg : String)
deriving DecidableEq, Repr

/-! ## Data model -/

/-- Model of `libmachine/host.Options` (the fields the repository touches:
`pkg/nodestore` `Load` fills `Driver`, `Memory`, `Disk`). -/
structure Options where
  Driver : String
  Memory : Int
  Disk : Int
deriving DecidableEq, Repr

/-- Model of a `libmachine/drivers.Driver` value at the granularity the
repository uses it: `pkg/nodestore` `Load` builds `none.NewDriver(name, url)`,
which records the machine name and the URL. -/
structure Driver where
  MachineName : String
  URL : String
deriving DecidableEq, Repr

/-- Model of `libmachine/host.Host` restricted to the fields the repository
reads or writes: name, schema version, driver configuration and options. -/
structure Host where
  Name : String
  ConfigVersion : Nat
  Driver : Driver
  DriverName : String
  HostOptions : Options
deriving DecidableEq, Repr

/-- Model of `&host.Host{Name: name}` — the zero-valued host that `Load` hands to
`loadConfig` in the Kubernetes-backed variant. -/
def newLoadHost (name : String) : Host :=
  { Name := name
    ConfigVersion := 0
    Driver := { MachineName := "", URL := "" }
    DriverName := ""
    HostOptions := { Driver := "", Memory := 0, Disk := 0 } }

/-- Model of `none.NewDriver(hostName, url)` from `docker/machine/drivers/none`. -/
def noneNewDriver (hostName url : String) : Driver :=
  { MachineName := hostName, URL := url }

/-- Model of a Kubernetes `Node` object restricted to what the code touches:
a name, plus possibly-nil annotation and label maps (the code checks the
maps against `nil` before assigning, so nil-ness is kept observable). -/
structure Node where
  name : String
  annotations : Option (List (String × String))
  labels : Option (List (String × String))
deriving DecidableEq, Repr

/-- Model of `node.Annotations[k]` with Go's zero-value semantics on a nil map. -/
def annLookup (n : Node) (k : String) : Option String :=
  match n.annotations with
  | none => none
  | some m => mapLookup m k

/-- Model of `node.Labels[k]` with Go's zero-value semantics on a nil map. -/
def labLookup (n : Node) (k : String) : Option String :=
  match n.labels with
  | none => none
  | some m => mapLookup m k

/-- Model of `KubeMachineAnnotationKey` from the source. -/
def KubeMachineAnnotationKey : String := "node.alpha.kubernetes.io/kube-machine"

/-- Model of `KubeMachineLabel` from the source. -/
def KubeMachineLabel : String := "kube-machine"

/-! ## The Kubernetes API client

The cluster is a list of nodes.  `getFault`/`listFault` inject arbitrary
backend failures, so that theorems about error propagation can quantify
over "any other backend error"; with no fault injected the client behaves
as an honest key-value store over node names. -/

/-- Lookup of a node by name in the cluster's node list. -/
def findNode : List Node → String → Option Node
  | [], _ => none
  | n :: rest, name => if n.name = name then some n else findNode rest name

/-- The state of the Kubernetes API as seen through the client. -/
structure World where
  nodes : List Node
  getFault : String → Option K8sErr
  listFault : Option K8sErr

/-- Model of `s.Client.CoreV1().Nodes().Get(name, ...)`. -/
def World.get (w : World) (name : String) : Except K8sErr Node :=
  match w.getFault name with
  | some e => .error e
  | none =>
    match findNode w.nodes name with
    | some n => .ok n
    | none => .error .notFound

/-- Model of `s.Client.CoreV1().Nodes().Create(node)`: fails when a node of that
name already exists, otherwise appends the node. -/
def World.create (w : World) (n : Node) : Except K8sErr World :=
  match findNode w.nodes n.name with
  | some _ => .error (.other "AlreadyExists")
  | none => .ok { w with nodes := w.nodes ++ [n] }

/-- Model of `s.Client.CoreV1().Nodes().Update(node)`: replaces the node of the same
name, `NotFound` when absent. -/
def World.update (w : World) (n : Node) : Except K8sErr World :=
  match findNode w.nodes n.name with
  | none => .error .notFound
  | some _ =>
    .ok { w with nodes := w.nodes.map (fun m => if m.name = n.name then n else m) }

/-- Model of `s.Client.CoreV1().Nodes().List(...)`. -/
def World.list (w : World) : Except K8sErr (List Node) :=
  match w.listFault with
  | some e => .error e
  | none => .ok w.nodes

/-! ## Kubernetes-backed node store (src/unnamed/part_001) -/

/-- Model of `NodeStore.Save` of the Kubernetes-backed variant: marshal the host to
JSON (the marshaller is a parameter standing for `json.MarshalIndent`),
`Get` the node; on `NotFound` create a fresh node carrying the annotation
and the label; on another error return it; otherwise set annotation and
label on the fetched node and `Update` it.  The success value is the
updated cluster state. -/
def k8sSave (marshal : Host → Except GoErr String) (w : World) (h : Host) :
    Except GoErr World :=
  match marshal h with
  | .error e => .error e
  | .ok data =>
    match w.get h.Name with
    | .error e =>
      if e.isNotFound then
        let node : Node :=
          { name := h.Name
            annotations := some [(KubeMachineAnnotationKey, data)]
            labels := some [(KubeMachineLabel, "true")] }
        match w.create node with
        | .error e2 => .error (.k8s e2)
        | .ok w' => .ok w'
      else .error (.k8s e)
    | .ok node =>
      let anns := match node.annotations with | none => [] | some m => m
      let labs := match node.labels with | none => [] | some m => m
      let node2 : Node :=
        { name := node.name
          annotations := some (mapInsert anns KubeMachineAnnotationKey data)
          labels := some (mapInsert labs KubeMachineLabel "true") }
      match w.update node2 with
      | .error e2 => .error (.k8s e2)
      | .ok w' => .ok w'

/-- Model of `NodeStore.loadConfig` of the Kubernetes-backed variant: read the
marker annotation (absent annotation is `os.ErrNotExist`), remember the
requested name, run `host.MigrateHost` (a parameter) on the raw bytes,
restore the name onto the migrated host, and re-`Save` when a migration
was performed.  Errors of migration and of the re-save are wrapped by
`fmt.Errorf` as in the source. -/
def k8sLoadConfig (marshal : Host → Except GoErr String)
    (migrate : Host → String → Except GoErr (Host × Bool))
    (w : World) (node : Node) (h : Host) : Except GoErr (Host × World) :=
  match annLookup node KubeMachineAnnotationKey with
  | none => .error .fileNotExist
  | some data =>
    let name := h.Name
    match migrate h data with
    | .error e => .error (.wrapped "Error getting migrated host" e)
    | .ok (migratedHost, migrationPerformed) =>
      let h2 : Host := { migratedHost with Name := name }
      if migrationPerformed then
        match k8sSave marshal w h2 with
        | .error e =>
          .error (.wrapped "Error saving config after migration was performed" e)
        | .ok w' => .ok (h2, w')
      else .ok (h2, w)

/-- Model of `NodeStore.Load` of the Kubernetes-backed variant: `Get` the node,
converting `NotFound` into `mcnerror.ErrHostDoesNotExist` and returning
any other error unchanged, then run `loadConfig` on `&host.Host{Name: name}`. -/
def k8sLoad (marshal : Host → Except GoErr String)
    (migrate : Host → String → Except GoErr (Host × Bool))
    (w : World) (name : String) : Except GoErr (Host × World) :=
  match w.get name with
  | .error e =>
    if e.isNotFound then .error (.hostDoesNotExist name) else .error (.k8s e)
  | .ok node => k8sLoadConfig marshal migrate w node (newLoadHost name)

/-- Model of `NodeStore.List` of the Kubernetes-backed variant: list all nodes and
keep the names of those whose annotations contain the marker key. -/
def k8sList (w : World) : Except GoErr (List String) :=
  match w.list with
  | .error e => .error (.k8s e)
  | .ok nodes =>
    .ok (nodes.foldl
      (fun acc node =>
        if (annLookup node KubeMachineAnnotationKey).isSome then acc ++ [node.name]
        else acc)
      [])

/-- Model of `NodeStore.Exists` of the Kubernetes-backed variant.  The Go result
pair `(bool, error)` is modelled as `Bool × Option K8sErr`. -/
def k8sExists (w : World) (name : String) : Bool × Option K8sErr :=
  match w.get name with
  | .error e => if e.isNotFound then (false, none) else (false, some e)
  | .ok _ => (true, none)

/-! ## Filesystem model (for src/pkg/nodestore/nodestore.go) -/

/-- Filesystem state: file contents by path, plus the set of directories. -/
structure Fs where
  files : List (String × String)
  dirs : List String
deriving DecidableEq, Repr

/-- Primitive filesystem effects the file-backed store performs. -/
inductive FsOp where
  | mkdirAll (path : String)
  | writeFile (path : String) (data : String)
  | remove (path : String)
  | rename (src dst : String)
deriving DecidableEq, Repr

/-- Effect of one primitive operation on the filesystem. -/
def applyFsOp (fs : Fs) : FsOp → Fs
  | .mkdirAll p =>
    { fs with dirs := if fs.dirs.contains p then fs.dirs else fs.dirs ++ [p] }
  | .writeFile p d => { fs with files := mapInsert fs.files p d }
  | .remove p => { fs with files := mapRemove fs.files p }
  | .rename src dst =>
    match mapLookup fs.files src with
    | some c => { fs with files := mapInsert (mapRemove fs.files src) dst c }
    | none => fs

/-- Run a sequence of filesystem operations to completion. -/
def runOps (fs : Fs) (ops : List FsOp) : Fs :=
  ops.foldl applyFsOp fs

/-- States the filesystem can be in if execution of an operation sequence
is cut short by a crash: before any operation, in the middle of a
`writeFile` (the file then holds a prefix of the new data, the truncation
by `O_TRUNC` being the `k = 0` case), or anywhere into the remaining
operations.  `remove` and `rename` are atomic. -/
inductive CrashReach : Fs → List FsOp → Fs → Prop
  | here (fs : Fs) (ops : List FsOp) : CrashReach fs ops fs
  | midWrite (fs : Fs) (p d : String) (rest : List FsOp) (k : Nat) :
      CrashReach fs (.writeFile p d :: rest)
        { fs with files := mapInsert fs.files p (d.take k) }
  | step (fs : Fs) (op : FsOp) (rest : List FsOp) (s : Fs) :
      CrashReach (applyFsOp fs op) rest s → CrashReach fs (op :: rest) s

/-- Model of `filepath.Join` for the clean relative components the store joins. -/
def filepathJoin (a b : String) : String := a ++ "/" ++ b

/-- Model of `NodeStore.GetMachinesDir` (both variants). -/
def GetMachinesDir (storePath : String) : String :=
  filepathJoin storePath "machines"

/-! ## File-backed node store (src/pkg/nodestore/nodestore.go) -/

/-- The operation sequence of `NodeStore.saveToFile`.  When `os.Stat`
reports the destination missing, the data is written directly to the
destination.  Otherwise: `ioutil.TempFile` creates an (empty) temp file,
the data is written to it, the destination is removed, the temp file is
renamed onto the destination, and the deferred `os.Remove` of the temp
file runs last. -/
def saveToFileOps (destExists : Bool) (tmpName file data : String) : List FsOp :=
  if destExists then
    [.writeFile tmpName "", .writeFile tmpName data,
     .remove file, .rename tmpName file, .remove tmpName]
  else
    [.writeFile file data]

/-- Model of `NodeStore.saveToFile` run to completion (no I/O failure): the
resulting filesystem together with the operation trace.  `tmpName` stands
for the name `ioutil.TempFile` chose in the destination's directory. -/
def saveToFile (fs : Fs) (tmpName file data : String) : Fs × List FsOp :=
  let ops := saveToFileOps (mapLookup fs.files file).isSome tmpName file data
  (runOps fs ops, ops)

/-- Model of `NodeStore.Save` of the file-backed variant: marshal the host,
`MkdirAll` the per-host directory `<base>/machines/<name>`, and
`saveToFile` the JSON into `config.json` there. -/
def pkgSave (marshal : Host → Except GoErr String) (tmpName storePath : String)
    (fs : Fs) (h : Host) : Except GoErr (Fs × List FsOp) :=
  match marshal h with
  | .error e => .error e
  | .ok data =>
    let hostPath := filepathJoin (GetMachinesDir storePath) h.Name
    let fs1 := applyFsOp fs (.mkdirAll hostPath)
    let res := saveToFile fs1 tmpName (filepathJoin hostPath "config.json") data
    .ok (res.1, .mkdirAll hostPath :: res.2)

/-- Model of `NodeStore.loadConfig` of the file-backed variant: read
`<base>/machines/<name>/config.json` (absence modelled as `os.ErrNotExist`),
remember the name, migrate, restore the name; when a migration was
performed, first `saveToFile` the original bytes to `config.json.bak`
and then `Save` the migrated host.  (This function is never called by
this variant's `Load`; it is embedded because the specification's claims
cite it.) -/
def pkgLoadConfig (marshal : Host → Except GoErr String)
    (migrate : Host → String → Except GoErr (Host × Bool))
    (tmpBak tmpCfg storePath : String) (fs : Fs) (h : Host) :
    Except GoErr (Host × Fs) × List FsOp :=
  match mapLookup fs.files
      (filepathJoin (filepathJoin (GetMachinesDir storePath) h.Name) "config.json") with
  | none => (.error .fileNotExist, [])
  | some data =>
    let name := h.Name
    match migrate h data with
    | .error e => (.error (.wrapped "Error getting migrated host" e), [])
    | .ok (migratedHost, migrationPerformed) =>
      let h2 : Host := { migratedHost with Name := name }
      if migrationPerformed then
        let res1 := saveToFile fs tmpBak
          (filepathJoin (filepathJoin (GetMachinesDir storePath) h2.Name) "config.json.bak")
          data
        match pkgSave marshal tmpCfg storePath res1.1 h2 with
        | .error e =>
          (.error (.wrapped "Error saving config after migration was performed" e), res1.2)
        | .ok (fs2, ops2) => (.ok (h2, fs2), res1.2 ++ ops2)
      else (.ok (h2, fs), [])

/-- Model of `NodeStore.Load` of the file-backed variant: `Get` the node from the
Kubernetes client, returning any error unchanged (there is no `IsNotFound`
branch here), and on success return a host built from hardcoded driver
defaults — the stored file is never read. -/
def pkgLoad (w : World) (name : String) : Except GoErr Host :=
  match w.get name with
  | .error e => .error (.k8s e)
  | .ok _ =>
    .ok { Name := name
          ConfigVersion := 3
          Driver := noneNewDriver name "https://1.2.3.4:1234"
          DriverName := "none"
          HostOptions := { Driver := "none", Memory := 42, Disk := 1234 } }

/-- Model of `NodeStore.List` of the file-backed variant: list all nodes and return
every node name, without filtering. -/
def pkgList (w : World) : Except GoErr (List String) :=
  match w.list with
  | .error e => .error (.k8s e)
  | .ok nodes => .ok (nodes.foldl (fun acc node => acc ++ [node.name]) [])

/-- Model of `NodeStore.Exists` of the file-backed variant (textually identical to
the Kubernetes-backed one). -/
def pkgExists (w : World) (name : String) : Bool × Option K8sErr :=
  match w.get name with
  | .error e => if e.isNotFound then (false, none) else (false, some e)
  | .ok _ => (true, none)

/-! ## Kubelet provisioner decorator (src/unnamed/part_000) -/

/-- Model of `nodeKubeconfigPath` from the source. -/
def nodeKubeconfigPath : String := "/etc/kubeconfig"

/-- Model of `kubeletUnitPath` from the source. -/
def kubeletUnitPath : String := "/etc/systemd/system/kubelet.service"

/-- Model of `kubeletUnitFile`: the literal systemd unit embedded in the source. -/
def kubeletUnitFile : String :=
  "[Unit]\n" ++
  "Description=Kubernetes Kubelet\n" ++
  "\n" ++
  "[Service]\n" ++
  "Restart=always\n" ++
  "RestartSec=10\n" ++
  "Environment=\"PATH=/usr/local/sbin:/usr/local/bin:/usr/sbin:/usr/bin:/sbin:/bin:/opt/bin\"\n" ++
  "ExecStartPre=/usr/bin/mkdir -p /var/lib/kubelet /var/run/kubernetes\n" ++
  "ExecStartPre=/usr/bin/curl -L -o /var/lib/kubelet/kubelet https://storage.googleapis.com/kubernetes-release/release/v1.5.3/bin/linux/amd64/kubelet\n" ++
  "ExecStartPre=/usr/bin/chmod +x /var/lib/kubelet/kubelet\n" ++
  "ExecStartPre=/usr/bin/mkdir -p /opt/bin\n" ++
  "ExecStartPre=/usr/bin/curl -L -o /opt/bin/socat https://s3-eu-west-1.amazonaws.com/kubermatic/coreos/socat\n" ++
  "ExecStartPre=/usr/bin/chmod +x /opt/bin/socat\n" ++
  "ExecStart=/var/lib/kubelet/kubelet \\\n" ++
  "  --address=0.0.0.0 \\\n" ++
  "  --anonymous-auth=false \\\n" ++
  "  --kubeconfig=/etc/kubeconfig \\\n" ++
  "  --require-kubeconfig \\\n" ++
  "  --cluster-dns=10.10.10.10 \\\n" ++
  "  --cluster-domain=cluster.local \\\n" ++
  "  --allow-privileged=true \\\n" ++
  "  --client-ca-file=/etc/ssl/etcd/root-ca.crt \\\n" ++
  "  --hostname-override=207.154.215.45 \\\n" ++
  "  --v=2 \\\n" ++
  "  --logtostderr=true \\\n" ++
  "  --network-plugin=cni\n" ++
  "[Install]\n" ++
  "WantedBy=multi-user.target\n"

/-- The alphabet of `base64.StdEncoding`. -/
def base64Alphabet : String :=
  "ABCDEFGHIJKLMNOPQRSTUVWXYZabcdefghijklmnopqrstuvwxyz0123456789+/"

/-- The character of the standard base64 alphabet at a 6-bit index. -/
def base64Index (n : Nat) : Char :=
  base64Alphabet.toList.getD n 'A'

/-- Model of `base64.StdEncoding.EncodeToString` over a byte sequence (bytes as
naturals, reduced mod 256 where combined). -/
def base64Encode : List Nat → String
  | [] => ""
  | [a] =>
    let a := a % 256
    String.mk [base64Index (a / 4), base64Index (a % 4 * 16), '=', '=']
  | [a, b] =>
    let a := a % 256
    let b := b % 256
    String.mk [base64Index (a / 4), base64Index (a % 4 * 16 + b / 16),
               base64Index (b % 16 * 4), '=']
  | a :: b :: c :: rest =>
    let n := a % 256 * 65536 + b % 256 * 256 + c % 256
    String.mk [base64Index (n / 262144), base64Index (n / 4096 % 64),
               base64Index (n / 64 % 64), base64Index (n % 64)] ++
    base64Encode rest

/-- The bytes of a (here always ASCII) Go string. -/
def strBytes (s : String) : List Nat := s.toList.map Char.toNat

/-- The context struct the source builds for the template.  Its `Path`
field is filled with the constant `nodeKubeconfigPath`, not with the
`path` argument of `scp` — exactly as in the source. -/
structure ScpCtx where
  Path : String
  Data64 : String
  Chmod : String

/-- Nodes of the parse tree that `text/template`'s parser would produce
for the scp command template: literal text interleaved with the three
field references. -/
inductive TmplNode where
  | text (s : String)
  | fieldPath
  | fieldData64
  | fieldChmod
deriving DecidableEq, Repr

/-- The template text the source passes to `template.New` (which uses it
as the template's *name*; the source never calls `Parse`). -/
def scpTemplateText : String :=
  "touch \x7b\x7b.Path\x7d\x7d && chmod \x7b\x7b.Chmod\x7d\x7d \x7b\x7b.Path\x7d\x7d && echo \"\x7b\x7b.Data64\x7d\x7d\" | base64 -d >> \x7b\x7b.Path\x7d\x7d"

/-- The parse tree `text/template` would assign to `scpTemplateText` if it
were ever parsed. -/
def scpTemplateNodes : List TmplNode :=
  [.text "touch ", .fieldPath, .text " && chmod ", .fieldChmod, .text " ",
   .fieldPath, .text " && echo \"", .fieldData64, .text "\" | base64 -d >> ",
   .fieldPath]

/-- Rendering of a parsed template against an `ScpCtx`. -/
def renderTmpl (nodes : List TmplNode) (ctx : ScpCtx) : String :=
  nodes.foldl
    (fun acc n =>
      acc ++ match n with
             | .text s => s
             | .fieldPath => ctx.Path
             | .fieldData64 => ctx.Data64
             | .fieldChmod => ctx.Chmod)
    ""

/-- Model of a `text/template.Template`: a name and an optional parse
tree.  `template.New(name)` allocates an *undefined* template: the parse
tree is only set by `Parse`, which the source never calls. -/
structure Template where
  name : String
  tree : Option (List TmplNode)

/-- Model of `template.New(text)`: the argument becomes the template's name; the
template stays unparsed. -/
def templateNew (text : String) : Template :=
  { name := text, tree := none }

/-- Model of `Template.Execute`: executing an undefined (never parsed) template
fails with `template: %q is an incomplete or empty template`; a parsed
template renders its tree against the context. -/
def Template.execute (t : Template) (ctx : ScpCtx) : Except GoErr String :=
  match t.tree with
  | none => .error (.templateIncomplete t.name)
  | some nodes => .ok (renderTmpl nodes ctx)

/-- Environment of the provisioner wrapper: the wrapped provisioner's
`Provision` outcome, `ioutil.ReadFile`, and `SSHCommand`. -/
structure ProvEnv where
  provisionResult : Except GoErr Unit
  readFile : String → Except GoErr (List Nat)
  ssh : String → Except GoErr String

/-- Observable steps `Provision` takes, in order. -/
inductive ProvStep where
  | underlyingProvision
  | readKubeconfig (path : String)
  | sshCommand (cmd : String)
deriving DecidableEq, Repr

/-- Model of `KubeletProvisionerWrapper.scp`: base64-encode the data, build the
context (with `Path` hardcoded to `nodeKubeconfigPath`, as in the source),
build the template via `template.New`, execute it, and on success run the
rendered command over SSH, wrapping an SSH failure in a new error.  The
second component is the trace of SSH commands actually issued. -/
def scp (env : ProvEnv) (data : List Nat) (path chmod : String) :
    Except GoErr Unit × List ProvStep :=
  let data64 := base64Encode data
  let ctx : ScpCtx := { Path := nodeKubeconfigPath, Data64 := data64, Chmod := chmod }
  let cmdTmpl := templateNew scpTemplateText
  match cmdTmpl.execute ctx with
  | .error e => (.error e, [])
  | .ok cmd =>
    match env.ssh cmd with
    | .error e => (.error (.sshFailed e), [.sshCommand cmd])
    | .ok _ => (.ok (), [.sshCommand cmd])

/-- Model of `KubeletProvisionerWrapper.Provision`: run the wrapped provisioner,
read the kubeconfig, `scp` it to `nodeKubeconfigPath`, then `scp` the
kubelet unit file to `kubeletUnitPath`; the first failing step's error is
returned and the remaining steps are not attempted.  The second component
is the trace of steps taken. -/
def Provision (env : ProvEnv) (kubeconfigPath : String) :
    Except GoErr Unit × List ProvStep :=
  match env.provisionResult with
  | .error e => (.error e, [.underlyingProvision])
  | .ok _ =>
    match env.readFile kubeconfigPath with
    | .error e => (.error e, [.underlyingProvision, .readKubeconfig kubeconfigPath])
    | .ok data =>
      match scp env data nodeKubeconfigPath "0600" with
      | (.error e, t1) =>
        (.error e, [.underlyingProvision, .readKubeconfig kubeconfigPath] ++ t1)
      | (.ok _, t1) =>
        match scp env (strBytes kubeletUnitFile) kubeletUnitPath "0600" with
        | (.error e, t2) =>
          (.error e, [.underlyingProvision, .readKubeconfig kubeconfigPath] ++ t1 ++ t2)
        | (.ok _, t2) =>
          (.ok (), [.underlyingProvision, .readKubeconfig kubeconfigPath] ++ t1 ++ t2)

/-! ## Helper lemmas -/

theorem mapLookup_insert (m : List (String × String)) (k v k' : String) :
    mapLookup (mapInsert m k v) k' = if k = k' then some v else mapLookup m k' := by
  induction m with
  | nil => simp [mapInsert, mapLookup]
  | cons hd tl ih =>
    obtain ⟨k0, v0⟩ := hd
    simp only [mapInsert]
    by_cases h0 : k0 = k
    · subst h0
      simp only [if_pos rfl, mapLookup]
      by_cases h : k0 = k' <;> simp [h, mapLookup]
    · simp only [if_neg h0, mapLookup]
      by_cases h : k0 = k'
      · subst h
        have hnk : ¬ (k = k0) := fun hh => h0 hh.symm
        simp [hnk]
      · simp [h, ih]

theorem mapLookup_remove (m : List (String × String)) (k k' : String) :
    mapLookup (mapRemove m k) k' = if k = k' then none else mapLookup m k' := by
  induction m with
  | nil => simp [mapRemove, mapLookup]
  | cons hd tl ih =>
    obtain ⟨k0, v0⟩ := hd
    simp only [mapRemove]
    by_cases h0 : k0 = k
    · subst h0
      rw [if_pos rfl, ih, mapLookup]
      by_cases h : k0 = k'
      · subst h
        simp
      · simp [h]
    · rw [if_neg h0, mapLookup]
      by_cases h : k0 = k'
      · subst h
        have hnk : ¬ (k = k0) := fun hh => h0 hh.symm
        simp [hnk, mapLookup]
      · simp [h, ih, mapLookup]

theorem findNode_some_name (l : List Node) (name : String) (n : Node)
    (h : findNode l name = some n) : n.name = name := by
  induction l with
  | nil => simp [findNode] at h
  | cons hd tl ih =>
    by_cases h0 : hd.name = name
    · simp [findNode, h0] at h
      subst h
      exact h0
    · simp [findNode, h0] at h
      exact ih h

theorem findNode_append_of_none (l1 l2 : List Node) (name : String)
    (h : findNode l1 name = none) :
    findNode (l1 ++ l2) name = findNode l2 name := by
  induction l1 with
  | nil => simp
  | cons hd tl ih =>
    by_cases h0 : hd.name = name
    · simp [findNode, h0] at h
    · simp [findNode, h0] at h ⊢
      exact ih h

theorem findNode_map_replace (l : List Node) (name : String) (n : Node)
    (hn : n.name = name) (hx : (findNode l name).isSome) :
    findNode (l.map (fun m => if m.name = name then n else m)) name = some n := by
  induction l with
  | nil => simp [findNode] at hx
  | cons hd tl ih =>
    by_cases h0 : hd.name = name
    · simp [findNode, h0, hn]
    · simp [findNode, h0] at hx ⊢
      exact ih hx

theorem names_map_replace (l : List Node) (name : String) (n : Node)
    (hn : n.name = name) :
    (l.map (fun m => if m.name = name then n else m)).map Node.name =
      l.map Node.name := by
  induction l with
  | nil => simp
  | cons hd tl ih =>
    by_cases h0 : hd.name = name <;> simp [h0, hn, ih]

/-- Everything the rest of the development needs to know about a
successful `k8sSave`: the fault functions are untouched, the saved node is
found under the host's name carrying the JSON annotation and the marker
label, a previously absent node is appended, and a present node is updated
in place (node names unchanged). -/
theorem k8sSave_spec (marshal : Host → Except GoErr String) (w : World) (h : Host)
    (d : String) (w' : World)
    (hm : marshal h = .ok d) (hs : k8sSave marshal w h = .ok w') :
    w'.getFault = w.getFault ∧ w'.listFault = w.listFault ∧
    (∃ nd, findNode w'.nodes h.Name = some nd ∧
      annLookup nd KubeMachineAnnotationKey = some d ∧
      labLookup nd KubeMachineLabel = some "true") ∧
    (findNode w.nodes h.Name = none →
      w'.nodes = w.nodes ++
        [{ name := h.Name
           annotations := some [(KubeMachineAnnotationKey, d)]
           labels := some [(KubeMachineLabel, "true")] }]) ∧
    ((findNode w.nodes h.Name).isSome → w'.nodes.map Node.name = w.nodes.map Node.name) := by
  unfold k8sSave at hs
  rw [hm] at hs
  unfold World.get at hs
  cases hgf : w.getFault h.Name with
  | some e =>
    rw [hgf] at hs
    cases e with
    | notFound =>
      simp only [K8sErr.isNotFound, if_true] at hs
      unfold World.create at hs
      cases hfn : findNode w.nodes h.Name with
      | some n0 => simp [hfn] at hs
      | none =>
        simp only [hfn] at hs
        cases hs
        refine ⟨rfl, rfl,
          ⟨{ name := h.Name
             annotations := some [(KubeMachineAnnotationKey, d)]
             labels := some [(KubeMachineLabel, "true")] }, ?_, ?_, ?_⟩, ?_, ?_⟩
        · simp only []
          rw [findNode_append_of_none _ _ _ hfn]
          simp [findNode]
        · simp [annLookup, mapLookup]
        · simp [labLookup, mapLookup]
        · intro _
          rfl
        · intro hcontra
          simp at hcontra
    | other msg => simp [K8sErr.isNotFound] at hs
  | none =>
    rw [hgf] at hs
    cases hfn : findNode w.nodes h.Name with
    | none =>
      rw [hfn] at hs
      simp only [K8sErr.isNotFound, if_true] at hs
      unfold World.create at hs
      simp only [hfn] at hs
      cases hs
      refine ⟨rfl, rfl,
        ⟨{ name := h.Name
           annotations := some [(KubeMachineAnnotationKey, d)]
           labels := some [(KubeMachineLabel, "true")] }, ?_, ?_, ?_⟩, ?_, ?_⟩
      · simp only []
        rw [findNode_append_of_none _ _ _ hfn]
        simp [findNode]
      · simp [annLookup, mapLookup]
      · simp [labLookup, mapLookup]
      · intro _
        rfl
      · intro hcontra
        simp at hcontra
    | some n0 =>
      rw [hfn] at hs
      unfold World.update at hs
      have hname : n0.name = h.Name := findNode_some_name _ _ _ hfn
      simp only [hname, hfn] at hs
      cases hs
      refine ⟨rfl, rfl, ⟨_, findNode_map_replace _ h.Name _ rfl (by simp [hfn]), ?_, ?_⟩,
        ?_, ?_⟩
      · simp [annLookup, mapLookup_insert]
      · simp [labLookup, mapLookup_insert]
      · intro hcontra
        simp at hcontra
      · intro _
        exact names_map_replace _ h.Name _ rfl

theorem foldl_filter_names (nodes : List Node) (acc : List String) :
    nodes.foldl
      (fun acc node =>
        if (annLookup node KubeMachineAnnotationKey).isSome then acc ++ [node.name]
        else acc) acc =
    acc ++ (nodes.filter
      (fun n => (annLookup n KubeMachineAnnotationKey).isSome)).map Node.name := by
  induction nodes generalizing acc with
  | nil => simp
  | cons hd tl ih =>
    by_cases h : (annLookup hd KubeMachineAnnotationKey).isSome <;>
      simp [h, ih, List.filter]

theorem foldl_all_names (nodes : List Node) (acc : List String) :
    nodes.foldl (fun acc node => acc ++ [node.name]) acc =
      acc ++ nodes.map Node.name := by
  induction nodes generalizing acc with
  | nil => simp
  | cons hd tl ih => simp [ih]

/-- A completed `saveToFile` leaves the destination holding exactly the
data, and never touches the directory set. -/
theorem saveToFile_lookup (fs : Fs) (tmp file data : String) (hne : tmp ≠ file) :
    mapLookup (saveToFile fs tmp file data).1.files file = some data ∧
    (saveToFile fs tmp file data).1.dirs = fs.dirs := by
  unfold saveToFile saveToFileOps runOps
  cases hex : (mapLookup fs.files file).isSome <;>
    simp [applyFsOp, mapLookup_insert, mapLookup_remove, hne, Ne.symm hne]

/-- A completed `saveToFile` leaves every path other than the temp file
and the destination unchanged. -/
theorem saveToFile_preserves (fs : Fs) (tmp file data p : String)
    (hne : tmp ≠ file) (h1 : p ≠ tmp) (h2 : p ≠ file) :
    mapLookup (saveToFile fs tmp file data).1.files p = mapLookup fs.files p := by
  unfold saveToFile saveToFileOps runOps
  cases hex : (mapLookup fs.files file).isSome <;>
    simp [applyFsOp, mapLookup_insert, mapLookup_remove, hne, Ne.symm hne,
      Ne.symm h1, Ne.symm h2]

/-- Everything later proofs need about a successful file-backed `Save`:
the per-host config file holds the JSON, the per-host directory exists,
and other paths are untouched. -/
theorem pkgSave_spec (marshal : Host → Except GoErr String) (tmp storePath : String)
    (fs : Fs) (h : Host) (d : String) (fs' : Fs) (ops : List FsOp)
    (hm : marshal h = .ok d)
    (hne : tmp ≠ filepathJoin (filepathJoin (GetMachinesDir storePath) h.Name) "config.json")
    (hp : pkgSave marshal tmp storePath fs h = .ok (fs', ops)) :
    mapLookup fs'.files
      (filepathJoin (filepathJoin (GetMachinesDir storePath) h.Name) "config.json") =
      some d ∧
    filepathJoin (GetMachinesDir storePath) h.Name ∈ fs'.dirs ∧
    (∀ p : String, p ≠ tmp →
      p ≠ filepathJoin (filepathJoin (GetMachinesDir storePath) h.Name) "config.json" →
      mapLookup fs'.files p = mapLookup fs.files p) := by
  unfold pkgSave at hp
  rw [hm] at hp
  dsimp only at hp
  simp only [Except.ok.injEq, Prod.mk.injEq] at hp
  obtain ⟨hfs, -⟩ := hp
  subst hfs
  refine ⟨(saveToFile_lookup _ _ _ _ hne).1, ?_, ?_⟩
  · rw [(saveToFile_lookup _ _ _ _ hne).2]
    simp only [applyFsOp]
    by_cases hc : filepathJoin (GetMachinesDir storePath) h.Name ∈ fs.dirs <;>
      simp [List.contains, List.elem_eq_mem, hc]
  · intro p h1 h2
    rw [saveToFile_preserves _ _ _ _ _ hne h1 h2]
    rfl

/-! ## The claims -/

/-- Claim C10: `Exists(name)` returns `(false, nil)` when the backing
lookup reports not-found, `(true, nil)` when it succeeds, and
`(false, err)` for any other backend error `err` — in both variants. -/
theorem c10_exists_error_contract (w : World) (name : String) :
    k8sExists w name = (match w.get name with
      | .error .notFound => (false, none)
      | .error (.other msg) => (false, some (.other msg))
      | .ok _ => (true, none)) ∧
    pkgExists w name = (match w.get name with
      | .error .notFound => (false, none)
      | .error (.other msg) => (false, some (.other msg))
      | .ok _ => (true, none)) := by
  constructor
  · unfold k8sExists
    cases hg : w.get name with
    | error e => cases e <;> simp [K8sErr.isNotFound]
    | ok n => simp
  · unfold pkgExists
    cases hg : w.get name with
    | error e => cases e <;> simp [K8sErr.isNotFound]
    | ok n => simp

/-- Claim C8: on a successful node listing, the Kubernetes-backed `List`
returns exactly the names of the nodes whose annotations contain the
marker annotation key, and the file-backed `List` returns all node names
without filtering. -/
theorem c8_list_contract (w : World) (nodes : List Node)
    (hl : w.list = .ok nodes) :
    k8sList w = .ok ((nodes.filter
      (fun n => (annLookup n KubeMachineAnnotationKey).isSome)).map Node.name) ∧
    pkgList w = .ok (nodes.map Node.name) := by
  constructor
  · simp only [k8sList, hl]
    rw [foldl_filter_names]
    simp
  · simp only [pkgList, hl]
    rw [foldl_all_names]
    simp

theorem c8_list_contract_witness :
    (({ nodes :=
          [{ name := "a", annotations := some [(KubeMachineAnnotationKey, "J")],
             labels := none },
           { name := "b", annotations := none, labels := none }]
        getFault := fun _ => none
        listFault := none } : World)).list = .ok
      [{ name := "a", annotations := some [(KubeMachineAnnotationKey, "J")],
         labels := none },
       { name := "b", annotations := none, labels := none }] ∧
    k8sList
      { nodes :=
          [{ name := "a", annotations := some [(KubeMachineAnnotationKey, "J")],
             labels := none },
           { name := "b", annotations := none, labels := none }]
        getFault := fun _ => none
        listFault := none } = .ok ["a"] ∧
    pkgList
      { nodes :=
          [{ name := "a", annotations := some [(KubeMachineAnnotationKey, "J")],
             labels := none },
           { name := "b", annotations := none, labels := none }]
        getFault := fun _ => none
        listFault := none } = .ok ["a", "b"] := by
  refine ⟨rfl, ?_, ?_⟩
  · have h := (c8_list_contract
      { nodes :=
          [{ name := "a", annotations := some [(KubeMachineAnnotationKey, "J")],
             labels := none },
           { name := "b", annotations := none, labels := none }]
        getFault := fun _ => none
        listFault := none }
      [{ name := "a", annotations := some [(KubeMachineAnnotationKey, "J")],
         labels := none },
       { name := "b", annotations := none, labels := none }] rfl).1
    simpa using h
  · have h := (c8_list_contract
      { nodes :=
          [{ name := "a", annotations := some [(KubeMachineAnnotationKey, "J")],
             labels := none },
           { name := "b", annotations := none, labels := none }]
        getFault := fun _ => none
        listFault := none }
      [{ name := "a", annotations := some [(KubeMachineAnnotationKey, "J")],
         labels := none },
       { name := "b", annotations := none, labels := none }] rfl).2
    simpa using h

/-- Claim C2 (code bug): the claim says the remote copy executes
`touch p && chmod m p && echo "b" | base64 -d >> p` with `p` the file's
destination path.  In the code, `scp` never executes any shell command:
the template is created with `template.New(text)` and never parsed, so
`Execute` always fails with the incomplete-template error; moreover the
template context's `Path` field is hardcoded to `nodeKubeconfigPath`, so
even the rendered command would name `/etc/kubeconfig` in every path slot,
whatever `path` was passed. -/
theorem c2_scp_no_command_and_hardcoded_path (env : ProvEnv) (data : List Nat)
    (path chmod : String) :
    (scp env data path chmod).1 = .error (.templateIncomplete scpTemplateText) ∧
    (scp env data path chmod).2 = [] ∧
    renderTmpl scpTemplateNodes
      { Path := nodeKubeconfigPath, Data64 := base64Encode data, Chmod := chmod } =
      "touch " ++ nodeKubeconfigPath ++ " && chmod " ++ chmod ++ " " ++
        nodeKubeconfigPath ++ " && echo \"" ++ base64Encode data ++
        "\" | base64 -d >> " ++ nodeKubeconfigPath := by
  refine ⟨rfl, rfl, ?_⟩
  rfl

/-- Claim C3 (code bug): when the wrapped provisioner and the kubeconfig
read succeed, `Provision` is claimed to copy the kubeconfig and then the
kubelet unit; instead it always fails at the first copy with the
incomplete-template error and issues no SSH command at all. -/
theorem c3_provision_never_copies (env : ProvEnv) (p : String) (d : List Nat)
    (hprov : env.provisionResult = .ok ())
    (hread : env.readFile p = .ok d) :
    (Provision env p).1 = .error (.templateIncomplete scpTemplateText) ∧
    (Provision env p).2 = [.underlyingProvision, .readKubeconfig p] := by
  unfold Provision
  rw [hprov, hread]
  simp [scp, templateNew, Template.execute]

theorem c3_provision_never_copies_witness :
    ({ provisionResult := .ok ()
       readFile := fun _ => .ok []
       ssh := fun _ => .ok "" } : ProvEnv).provisionResult = .ok () ∧
    ({ provisionResult := .ok ()
       readFile := fun _ => .ok []
       ssh := fun _ => .ok "" } : ProvEnv).readFile "/root/.kube/config" = .ok [] ∧
    (Provision
      { provisionResult := .ok ()
        readFile := fun _ => .ok []
        ssh := fun _ => .ok "" } "/root/.kube/config").1 =
      .error (.templateIncomplete scpTemplateText) ∧
    (Provision
      { provisionResult := .ok ()
        readFile := fun _ => .ok []
        ssh := fun _ => .ok "" } "/root/.kube/config").2 =
      [.underlyingProvision, .readKubeconfig "/root/.kube/config"] := by
  have h := c3_provision_never_copies
    { provisionResult := .ok (), readFile := fun _ => .ok [], ssh := fun _ => .ok "" }
    "/root/.kube/config" [] rfl rfl
  exact ⟨rfl, rfl, h.1, h.2⟩

/-- Claim C5, counterexample: the file-backed `Load` on an absent node
returns the backend not-found error itself, not the store's distinct
`ErrHostDoesNotExist` kind that the Kubernetes-backed variant returns. -/
theorem c5_counterexample :
    pkgLoad { nodes := [], getFault := fun _ => none, listFault := none } "n" =
      .error (.k8s .notFound) ∧
    k8sLoad (fun _ => .ok "") (fun h _ => .ok (h, false))
      { nodes := [], getFault := fun _ => none, listFault := none } "n" =
      .error (.hostDoesNotExist "n") ∧
    (GoErr.k8s .notFound ≠ GoErr.hostDoesNotExist "n") := by
  refine ⟨rfl, rfl, by decide⟩

/-- Claim C5 (amended): when the backing `Get` fails, the
Kubernetes-backed `Load` converts not-found into `ErrHostDoesNotExist` and
propagates every other backend error unchanged, while the file-backed
`Load` propagates every backend error unchanged, including not-found. -/
theorem c5_load_error_contract (marshal : Host → Except GoErr String)
    (migrate : Host → String → Except GoErr (Host × Bool))
    (w : World) (name : String) (e : K8sErr)
    (hget : w.get name = .error e) :
    k8sLoad marshal migrate w name =
      .error (if e.isNotFound then .hostDoesNotExist name else .k8s e) ∧
    pkgLoad w name = .error (.k8s e) := by
  constructor
  · unfold k8sLoad
    rw [hget]
    cases e <;> simp [K8sErr.isNotFound]
  · unfold pkgLoad
    rw [hget]

theorem c5_load_error_contract_witness :
    ({ nodes := [], getFault := fun _ => none, listFault := none } : World).get "n" =
      .error .notFound ∧
    k8sLoad (fun _ => .ok "") (fun h _ => .ok (h, false))
      { nodes := [], getFault := fun _ => none, listFault := none } "n" =
      .error (.hostDoesNotExist "n") ∧
    pkgLoad { nodes := [], getFault := fun _ => none, listFault := none } "n" =
      .error (.k8s .notFound) := by
  have h := c5_load_error_contract (fun _ => .ok "") (fun h _ => .ok (h, false))
    { nodes := [], getFault := fun _ => none, listFault := none } "n" .notFound rfl
  exact ⟨rfl, h.1, h.2⟩

/-- Claim C9: whenever `Load(n)` succeeds, the returned host's `Name`
field is `n` — in the Kubernetes-backed variant because `loadConfig`
restores the requested name onto the migrated host, and in the file-backed
variant because the hardcoded record is built with that name. -/
theorem c9_load_restores_name (marshal : Host → Except GoErr String)
    (migrate : Host → String → Except GoErr (Host × Bool))
    (w : World) (name : String) (h : Host) (w' : World)
    (w2 : World) (name2 : String) (h2 : Host)
    (hk : k8sLoad marshal migrate w name = .ok (h, w'))
    (hp : pkgLoad w2 name2 = .ok h2) :
    h.Name = name ∧ h2.Name = name2 := by
  constructor
  · unfold k8sLoad k8sLoadConfig at hk
    cases hg : w.get name with
    | error e =>
      rw [hg] at hk
      cases e <;> simp [K8sErr.isNotFound] at hk
    | ok node =>
      rw [hg] at hk
      dsimp only at hk
      cases hann : annLookup node KubeMachineAnnotationKey with
      | none =>
        rw [hann] at hk
        simp at hk
      | some data =>
        rw [hann] at hk
        dsimp only at hk
        cases hmig : migrate (newLoadHost name) data with
        | error e =>
          rw [hmig] at hk
          simp at hk
        | ok pr =>
          obtain ⟨mh, performed⟩ := pr
          rw [hmig] at hk
          dsimp only at hk
          cases performed with
          | false =>
            simp at hk
            obtain ⟨hh, -⟩ := hk
            subst hh
            rfl
          | true =>
            rw [if_pos rfl] at hk
            split at hk
            · simp at hk
            · simp at hk
              obtain ⟨hh, -⟩ := hk
              subst hh
              rfl
  · unfold pkgLoad at hp
    cases hg : w2.get name2 with
    | error e =>
      rw [hg] at hp
      simp at hp
    | ok n =>
      rw [hg] at hp
      simp at hp
      subst hp
      rfl

theorem c9_load_restores_name_witness :
    k8sLoad (fun _ => .ok "J") (fun h _ => .ok (h, false))
      { nodes := [{ name := "n", annotations := some [(KubeMachineAnnotationKey, "J")],
                    labels := none }]
        getFault := fun _ => none
        listFault := none } "n" =
      .ok (newLoadHost "n",
        { nodes := [{ name := "n", annotations := some [(KubeMachineAnnotationKey, "J")],
                      labels := none }]
          getFault := fun _ => none
          listFault := none }) ∧
    pkgLoad
      { nodes := [{ name := "n", annotations := some [(KubeMachineAnnotationKey, "J")],
                    labels := none }]
        getFault := fun _ => none
        listFault := none } "n" =
      .ok { Name := "n"
            ConfigVersion := 3
            Driver := noneNewDriver "n" "https://1.2.3.4:1234"
            DriverName := "none"
            HostOptions := { Driver := "none", Memory := 42, Disk := 1234 } } ∧
    (newLoadHost "n").Name = "n" ∧
    ({ Name := "n"
       ConfigVersion := 3
       Driver := noneNewDriver "n" "https://1.2.3.4:1234"
       DriverName := "none"
       HostOptions := { Driver := "none", Memory := 42, Disk := 1234 } } : Host).Name =
      "n" := by
  have h := c9_load_restores_name (fun _ => .ok "J") (fun h _ => .ok (h, false))
    { nodes := [{ name := "n", annotations := some [(KubeMachineAnnotationKey, "J")],
                  labels := none }]
      getFault := fun _ => none
      listFault := none } "n" (newLoadHost "n")
    { nodes := [{ name := "n", annotations := some [(KubeMachineAnnotationKey, "J")],
                  labels := none }]
      getFault := fun _ => none
      listFault := none }
    { nodes := [{ name := "n", annotations := some [(KubeMachineAnnotationKey, "J")],
                  labels := none }]
      getFault := fun _ => none
      listFault := none } "n"
    { Name := "n"
      ConfigVersion := 3
      Driver := noneNewDriver "n" "https://1.2.3.4:1234"
      DriverName := "none"
      HostOptions := { Driver := "none", Memory := 42, Disk := 1234 } } rfl rfl
  exact ⟨rfl, rfl, h.1, h.2⟩

/-- Claim C7: `Save(r)` serializes the record to JSON and, in the
Kubernetes-backed variant, stores the JSON under the marker annotation key
and sets the marker label on the node named `r.Name`, creating the node
when it does not exist and updating it otherwise; in the file-backed
variant it writes the JSON to `<base>/machines/<r.Name>/config.json`,
creating the directory as needed. -/
theorem c7_save_contract (marshal : Host → Except GoErr String) (w : World) (h : Host)
    (d : String) (w' : World) (tmp storePath : String) (fs fs' : Fs) (ops : List FsOp)
    (hm : marshal h = .ok d)
    (hs : k8sSave marshal w h = .ok w')
    (htmp : tmp ≠ filepathJoin (filepathJoin (GetMachinesDir storePath) h.Name) "config.json")
    (hp : pkgSave marshal tmp storePath fs h = .ok (fs', ops)) :
    ((findNode w'.nodes h.Name).bind fun n => annLookup n KubeMachineAnnotationKey) =
      some d ∧
    ((findNode w'.nodes h.Name).bind fun n => labLookup n KubeMachineLabel) =
      some "true" ∧
    (findNode w.nodes h.Name = none →
      w'.nodes = w.nodes ++
        [{ name := h.Name
           annotations := some [(KubeMachineAnnotationKey, d)]
           labels := some [(KubeMachineLabel, "true")] }]) ∧
    ((findNode w.nodes h.Name).isSome → w'.nodes.map Node.name = w.nodes.map Node.name) ∧
    mapLookup fs'.files
      (filepathJoin (filepathJoin (GetMachinesDir storePath) h.Name) "config.json") =
      some d ∧
    filepathJoin (GetMachinesDir storePath) h.Name ∈ fs'.dirs := by
  obtain ⟨-, -, ⟨nd, hfind, hannl, hlabl⟩, hcreate, hupdate⟩ :=
    k8sSave_spec marshal w h d w' hm hs
  obtain ⟨hf1, hf2, -⟩ := pkgSave_spec marshal tmp storePath fs h d fs' ops hm htmp hp
  refine ⟨?_, ?_, hcreate, hupdate, hf1, hf2⟩
  · rw [hfind]
    simpa using hannl
  · rw [hfind]
    simpa using hlabl

theorem c7_save_contract_witness :
    (fun (_ : Host) => (.ok "J" : Except GoErr String))
      { Name := "n", ConfigVersion := 3, Driver := noneNewDriver "n" "u",
        DriverName := "d", HostOptions := { Driver := "o", Memory := 1, Disk := 2 } } =
      .ok "J" ∧
    k8sSave (fun _ => .ok "J") { nodes := [], getFault := fun _ => none, listFault := none }
      { Name := "n", ConfigVersion := 3, Driver := noneNewDriver "n" "u",
        DriverName := "d", HostOptions := { Driver := "o", Memory := 1, Disk := 2 } } =
      .ok { nodes := [{ name := "n",
                        annotations := some [(KubeMachineAnnotationKey, "J")],
                        labels := some [(KubeMachineLabel, "true")] }]
            getFault := fun _ => none
            listFault := none } ∧
    ("T" : String) ≠ "b/machines/n/config.json" ∧
    pkgSave (fun _ => .ok "J") "T" "b" { files := [], dirs := [] }
      { Name := "n", ConfigVersion := 3, Driver := noneNewDriver "n" "u",
        DriverName := "d", HostOptions := { Driver := "o", Memory := 1, Disk := 2 } } =
      .ok ({ files := [("b/machines/n/config.json", "J")], dirs := ["b/machines/n"] },
        [.mkdirAll "b/machines/n", .writeFile "b/machines/n/config.json" "J"]) ∧
    ((findNode [{ name := "n",
                  annotations := some [(KubeMachineAnnotationKey, "J")],
                  labels := some [(KubeMachineLabel, "true")] }] "n").bind
      fun n => annLookup n KubeMachineAnnotationKey) = some "J" ∧
    mapLookup [("b/machines/n/config.json", "J")] "b/machines/n/config.json" =
      some "J" ∧
    ("b/machines/n" : String) ∈ ["b/machines/n"] := by
  have hc := c7_save_contract (fun _ => .ok "J")
    { nodes := [], getFault := fun _ => none, listFault := none }
    { Name := "n", ConfigVersion := 3, Driver := noneNewDriver "n" "u",
      DriverName := "d", HostOptions := { Driver := "o", Memory := 1, Disk := 2 } }
    "J"
    { nodes := [{ name := "n",
                  annotations := some [(KubeMachineAnnotationKey, "J")],
                  labels := some [(KubeMachineLabel, "true")] }]
      getFault := fun _ => none
      listFault := none }
    "T" "b" { files := [], dirs := [] }
    { files := [("b/machines/n/config.json", "J")], dirs := ["b/machines/n"] }
    [.mkdirAll "b/machines/n", .writeFile "b/machines/n/config.json" "J"]
    rfl rfl (by decide) rfl
  exact ⟨rfl, rfl, by decide, rfl, hc.1, hc.2.2.2.2.1, hc.2.2.2.2.2⟩

/-- Claim C6: during a load, the store re-saves the record iff the
migration routine reports a migration; when no migration was performed the
backing store is not written (the world, respectively the filesystem and
trace, stay unchanged), and in the file-backed variant a backup of the
original bytes is written to `config.json.bak` before the migrated record
is saved (the trace is the backup's operations followed by the save's, and
the final filesystem holds the original bytes at the backup path). -/
theorem c6_resave_iff_migration (marshal : Host → Except GoErr String)
    (migrate : Host → String → Except GoErr (Host × Bool))
    (w : World) (node : Node) (h : Host) (data : String) (mh : Host) (performed : Bool)
    (tmpBak tmpCfg storePath : String) (fs : Fs) (hfile : Host) (mh2 : Host)
    (performed2 : Bool) (d2 : String) (fs2 : Fs) (ops2 : List FsOp)
    (hann : annLookup node KubeMachineAnnotationKey = some data)
    (hmig : migrate h data = .ok (mh, performed))
    (hfs : mapLookup fs.files
      (filepathJoin (filepathJoin (GetMachinesDir storePath) hfile.Name) "config.json") =
      some data)
    (hmig2 : migrate hfile data = .ok (mh2, performed2))
    (hm2 : marshal { mh2 with Name := hfile.Name } = .ok d2)
    (hsave2 : pkgSave marshal tmpCfg storePath
      (saveToFile fs tmpBak
        (filepathJoin (filepathJoin (GetMachinesDir storePath) hfile.Name)
          "config.json.bak") data).1
      { mh2 with Name := hfile.Name } = .ok (fs2, ops2))
    (hb1 : tmpBak ≠
      filepathJoin (filepathJoin (GetMachinesDir storePath) hfile.Name) "config.json.bak")
    (hb2 : tmpCfg ≠
      filepathJoin (filepathJoin (GetMachinesDir storePath) hfile.Name) "config.json")
    (hb3 : filepathJoin (filepathJoin (GetMachinesDir storePath) hfile.Name)
      "config.json.bak" ≠ tmpCfg)
    (hb4 : filepathJoin (filepathJoin (GetMachinesDir storePath) hfile.Name)
        "config.json.bak" ≠
      filepathJoin (filepathJoin (GetMachinesDir storePath) hfile.Name) "config.json") :
    (performed = false →
      k8sLoadConfig marshal migrate w node h = .ok ({ mh with Name := h.Name }, w)) ∧
    (performed = true →
      k8sLoadConfig marshal migrate w node h =
        (match k8sSave marshal w { mh with Name := h.Name } with
         | .error e =>
            .error (.wrapped "Error saving config after migration was performed" e)
         | .ok w' => .ok ({ mh with Name := h.Name }, w'))) ∧
    (performed2 = false →
      pkgLoadConfig marshal migrate tmpBak tmpCfg storePath fs hfile =
        (.ok ({ mh2 with Name := hfile.Name }, fs), [])) ∧
    (performed2 = true →
      pkgLoadConfig marshal migrate tmpBak tmpCfg storePath fs hfile =
        (.ok ({ mh2 with Name := hfile.Name }, fs2),
          (saveToFile fs tmpBak
            (filepathJoin (filepathJoin (GetMachinesDir storePath) hfile.Name)
              "config.json.bak") data).2 ++ ops2)) ∧
    (performed2 = true →
      mapLookup fs2.files
        (filepathJoin (filepathJoin (GetMachinesDir storePath) hfile.Name)
          "config.json.bak") = some data) := by
  refine ⟨?_, ?_, ?_, ?_, ?_⟩
  · intro hperf
    subst hperf
    unfold k8sLoadConfig
    rw [hann]
    dsimp only
    rw [hmig]
    simp
  · intro hperf
    subst hperf
    unfold k8sLoadConfig
    rw [hann]
    dsimp only
    rw [hmig]
    simp
  · intro hperf
    subst hperf
    unfold pkgLoadConfig
    rw [hfs]
    dsimp only
    rw [hmig2]
    simp
  · intro hperf
    subst hperf
    unfold pkgLoadConfig
    rw [hfs]
    dsimp only
    rw [hmig2]
    dsimp only
    rw [hsave2]
    simp
  · intro hperf
    obtain ⟨-, -, hpres⟩ :=
      pkgSave_spec marshal tmpCfg storePath
        (saveToFile fs tmpBak
          (filepathJoin (filepathJoin (GetMachinesDir storePath) hfile.Name)
            "config.json.bak") data).1
        { mh2 with Name := hfile.Name } d2 fs2 ops2 hm2 hb2 hsave2
    rw [hpres _ hb3 hb4]
    exact (saveToFile_lookup _ _ _ _ hb1).1

theorem c6_resave_iff_migration_witness :
    annLookup { name := "n", annotations := some [(KubeMachineAnnotationKey, "J")],
                labels := none } KubeMachineAnnotationKey = some "J" ∧
    pkgSave (fun _ => .ok "J") "TC" "b"
      (saveToFile { files := [("b/machines/n/config.json", "J")], dirs := [] } "TB"
        "b/machines/n/config.json.bak" "J").1 (newLoadHost "n") =
      .ok ({ files := [("b/machines/n/config.json.bak", "J"),
                       ("b/machines/n/config.json", "J")]
             dirs := ["b/machines/n"] },
        [.mkdirAll "b/machines/n", .writeFile "TC" "", .writeFile "TC" "J",
         .remove "b/machines/n/config.json", .rename "TC" "b/machines/n/config.json",
         .remove "TC"]) ∧
    k8sLoadConfig (fun _ => .ok "J") (fun hh _ => .ok (hh, true))
      { nodes := [{ name := "n", annotations := some [(KubeMachineAnnotationKey, "J")],
                    labels := none }]
        getFault := fun _ => none
        listFault := none }
      { name := "n", annotations := some [(KubeMachineAnnotationKey, "J")],
        labels := none }
      (newLoadHost "n") =
      .ok (newLoadHost "n",
        { nodes := [{ name := "n",
                      annotations := some [(KubeMachineAnnotationKey, "J")],
                      labels := some [(KubeMachineLabel, "true")] }]
          getFault := fun _ => none
          listFault := none }) ∧
    pkgLoadConfig (fun _ => .ok "J") (fun hh _ => .ok (hh, true)) "TB" "TC" "b"
      { files := [("b/machines/n/config.json", "J")], dirs := [] } (newLoadHost "n") =
      (.ok (newLoadHost "n",
        { files := [("b/machines/n/config.json.bak", "J"),
                    ("b/machines/n/config.json", "J")]
          dirs := ["b/machines/n"] }),
        [.writeFile "b/machines/n/config.json.bak" "J", .mkdirAll "b/machines/n",
         .writeFile "TC" "", .writeFile "TC" "J", .remove "b/machines/n/config.json",
         .rename "TC" "b/machines/n/config.json", .remove "TC"]) ∧
    mapLookup [("b/machines/n/config.json.bak", "J"), ("b/machines/n/config.json", "J")]
      "b/machines/n/config.json.bak" = some "J" := by
  have hc := c6_resave_iff_migration (fun _ => .ok "J") (fun hh _ => .ok (hh, true))
    { nodes := [{ name := "n", annotations := some [(KubeMachineAnnotationKey, "J")],
                  labels := none }]
      getFault := fun _ => none
      listFault := none }
    { name := "n", annotations := some [(KubeMachineAnnotationKey, "J")],
      labels := none }
    (newLoadHost "n") "J" (newLoadHost "n") true
    "TB" "TC" "b" { files := [("b/machines/n/config.json", "J")], dirs := [] }
    (newLoadHost "n") (newLoadHost "n") true "J"
    { files := [("b/machines/n/config.json.bak", "J"),
                ("b/machines/n/config.json", "J")]
      dirs := ["b/machines/n"] }
    [.mkdirAll "b/machines/n", .writeFile "TC" "", .writeFile "TC" "J",
     .remove "b/machines/n/config.json", .rename "TC" "b/machines/n/config.json",
     .remove "TC"]
    rfl rfl rfl rfl rfl rfl (by decide) (by decide) (by decide) (by decide)
  exact ⟨rfl, rfl, hc.2.1 rfl, hc.2.2.2.1 rfl, hc.2.2.2.2 rfl⟩

/-- Claim C1 (amended): after a successful `Save(r)`, the
Kubernetes-backed `Load(r.Name)` returns exactly `r` whenever the external
migration routine reconstructs the saved record from its JSON without
performing a migration (the "mod migration" clause); the file-backed
`Load`, by contrast, ignores the stored file entirely and returns a fixed
record built from hardcoded driver defaults. -/
theorem c1_save_load_roundtrip (marshal : Host → Except GoErr String)
    (migrate : Host → String → Except GoErr (Host × Bool))
    (w w' : World) (r : Host) (d : String) (mh : Host)
    (w2 : World) (name2 : String) (n2 : Node)
    (hm : marshal r = .ok d)
    (hmig : migrate (newLoadHost r.Name) d = .ok (mh, false))
    (hrec : ({ mh with Name := r.Name } : Host) = r)
    (hfault : w.getFault r.Name = none)
    (hsave : k8sSave marshal w r = .ok w')
    (hget2 : w2.get name2 = .ok n2) :
    k8sLoad marshal migrate w' r.Name = .ok (r, w') ∧
    pkgLoad w2 name2 =
      .ok { Name := name2
            ConfigVersion := 3
            Driver := noneNewDriver name2 "https://1.2.3.4:1234"
            DriverName := "none"
            HostOptions := { Driver := "none", Memory := 42, Disk := 1234 } } := by
  obtain ⟨hgf, -, ⟨nd, hfind, hannl, -⟩, -, -⟩ := k8sSave_spec marshal w r d w' hm hsave
  constructor
  · unfold k8sLoad k8sLoadConfig World.get
    rw [hgf, hfault]
    dsimp only
    rw [hfind]
    dsimp only
    rw [hannl]
    dsimp only
    rw [hmig]
    simp [newLoadHost, hrec]
  · unfold pkgLoad
    rw [hget2]

theorem c1_save_load_roundtrip_witness :
    k8sSave (fun _ => .ok "J")
      { nodes := [], getFault := fun _ => none, listFault := none }
      { Name := "n", ConfigVersion := 3, Driver := noneNewDriver "n" "u",
        DriverName := "d", HostOptions := { Driver := "o", Memory := 1, Disk := 2 } } =
      .ok { nodes := [{ name := "n",
                        annotations := some [(KubeMachineAnnotationKey, "J")],
                        labels := some [(KubeMachineLabel, "true")] }]
            getFault := fun _ => none
            listFault := none } ∧
    k8sLoad (fun _ => .ok "J")
      (fun _ _ => .ok ({ Name := "zzz", ConfigVersion := 3,
                         Driver := noneNewDriver "n" "u", DriverName := "d",
                         HostOptions := { Driver := "o", Memory := 1, Disk := 2 } },
                       false))
      { nodes := [{ name := "n",
                    annotations := some [(KubeMachineAnnotationKey, "J")],
                    labels := some [(KubeMachineLabel, "true")] }]
        getFault := fun _ => none
        listFault := none } "n" =
      .ok ({ Name := "n", ConfigVersion := 3, Driver := noneNewDriver "n" "u",
             DriverName := "d", HostOptions := { Driver := "o", Memory := 1, Disk := 2 } },
        { nodes := [{ name := "n",
                      annotations := some [(KubeMachineAnnotationKey, "J")],
                      labels := some [(KubeMachineLabel, "true")] }]
          getFault := fun _ => none
          listFault := none }) ∧
    pkgLoad
      { nodes := [{ name := "n",
                    annotations := some [(KubeMachineAnnotationKey, "J")],
                    labels := some [(KubeMachineLabel, "true")] }]
        getFault := fun _ => none
        listFault := none } "n" =
      .ok { Name := "n"
            ConfigVersion := 3
            Driver := noneNewDriver "n" "https://1.2.3.4:1234"
            DriverName := "none"
            HostOptions := { Driver := "none", Memory := 42, Disk := 1234 } } := by
  have hc := c1_save_load_roundtrip (fun _ => .ok "J")
    (fun _ _ => .ok ({ Name := "zzz", ConfigVersion := 3,
                       Driver := noneNewDriver "n" "u", DriverName := "d",
                       HostOptions := { Driver := "o", Memory := 1, Disk := 2 } },
                     false))
    { nodes := [], getFault := fun _ => none, listFault := none }
    { nodes := [{ name := "n",
                  annotations := some [(KubeMachineAnnotationKey, "J")],
                  labels := some [(KubeMachineLabel, "true")] }]
      getFault := fun _ => none
      listFault := none }
    { Name := "n", ConfigVersion := 3, Driver := noneNewDriver "n" "u",
      DriverName := "d", HostOptions := { Driver := "o", Memory := 1, Disk := 2 } }
    "J"
    { Name := "zzz", ConfigVersion := 3, Driver := noneNewDriver "n" "u",
      DriverName := "d", HostOptions := { Driver := "o", Memory := 1, Disk := 2 } }
    { nodes := [{ name := "n",
                  annotations := some [(KubeMachineAnnotationKey, "J")],
                  labels := some [(KubeMachineLabel, "true")] }]
      getFault := fun _ => none
      listFault := none }
    "n"
    { name := "n", annotations := some [(KubeMachineAnnotationKey, "J")],
      labels := some [(KubeMachineLabel, "true")] }
    rfl rfl rfl rfl rfl rfl
  exact ⟨rfl, hc.1, hc.2⟩

/-- Claim C1, counterexample: in the file-backed variant, saving a record
with `Memory = 7` and then loading it back yields the hardcoded default
record with `Memory = 42` — the round-trip does not return the saved
record. -/
theorem c1_roundtrip_counterexample :
    pkgSave (fun _ => .ok "J") "T" "b" { files := [], dirs := [] }
      { Name := "n", ConfigVersion := 3, Driver := noneNewDriver "n" "u",
        DriverName := "d", HostOptions := { Driver := "o", Memory := 7, Disk := 2 } } =
      .ok ({ files := [("b/machines/n/config.json", "J")], dirs := ["b/machines/n"] },
        [.mkdirAll "b/machines/n", .writeFile "b/machines/n/config.json" "J"]) ∧
    pkgLoad
      { nodes := [{ name := "n", annotations := none, labels := none }]
        getFault := fun _ => none
        listFault := none } "n" =
      .ok { Name := "n"
            ConfigVersion := 3
            Driver := noneNewDriver "n" "https://1.2.3.4:1234"
            DriverName := "none"
            HostOptions := { Driver := "none", Memory := 42, Disk := 1234 } } ∧
    ({ Name := "n"
       ConfigVersion := 3
       Driver := noneNewDriver "n" "https://1.2.3.4:1234"
       DriverName := "none"
       HostOptions := { Driver := "none", Memory := 42, Disk := 1234 } } : Host) ≠
      { Name := "n", ConfigVersion := 3, Driver := noneNewDriver "n" "u",
        DriverName := "d", HostOptions := { Driver := "o", Memory := 7, Disk := 2 } } := by
  exact ⟨rfl, rfl, by decide⟩

/-- Claim C4, counterexample: crashing `saveToFile` right after its
`os.Remove(file)` step leaves the destination absent — neither the old nor
the new content — so the save is not atomic in the claimed sense. -/
theorem c4_counterexample :
    ¬ (∀ s : Fs,
        CrashReach { files := [("m/config.json", "OLD")], dirs := [] }
          (saveToFile { files := [("m/config.json", "OLD")], dirs := [] }
            "m/config.json.tmp1" "m/config.json" "NEW").2 s →
        mapLookup s.files "m/config.json" = some "OLD" ∨
        mapLookup s.files "m/config.json" = some "NEW") := by
  intro hall
  have hops : (saveToFile { files := [("m/config.json", "OLD")], dirs := [] }
      "m/config.json.tmp1" "m/config.json" "NEW").2 =
      [.writeFile "m/config.json.tmp1" "", .writeFile "m/config.json.tmp1" "NEW",
       .remove "m/config.json", .rename "m/config.json.tmp1" "m/config.json",
       .remove "m/config.json.tmp1"] := rfl
  rw [hops] at hall
  have h := hall { files := [("m/config.json.tmp1", "NEW")], dirs := [] }
    (CrashReach.step _ _ _ _ (CrashReach.step _ _ _ _ (CrashReach.step _ _ _ _
      (CrashReach.here _ _))))
  revert h
  decide

/-- Claim C4 (amended): when the destination already exists, `saveToFile`
writes the data to a temp file, removes the destination, and renames the
temp file over it; a crash anywhere in that sequence leaves the
destination either with its previous complete content, absent, or with the
new complete content — never partially written.  When the destination does
not exist, the data is written directly to it, with no temp file. -/
theorem c4_crash_states_amended (fs : Fs) (tmp file data old : String) (s : Fs)
    (fsB : Fs)
    (hold : mapLookup fs.files file = some old)
    (hne : tmp ≠ file)
    (hnone : mapLookup fsB.files file = none)
    (hr : CrashReach fs (saveToFile fs tmp file data).2 s) :
    (mapLookup s.files file = some old ∨ mapLookup s.files file = none ∨
      mapLookup s.files file = some data) ∧
    (saveToFile fsB tmp file data).2 = [.writeFile file data] := by
  have hops : (saveToFile fs tmp file data).2 =
      [.writeFile tmp "", .writeFile tmp data, .remove file, .rename tmp file,
       .remove tmp] := by
    simp [saveToFile, saveToFileOps, hold]
  constructor
  · rw [hops] at hr
    cases hr with
    | here => exact Or.inl hold
    | midWrite _ _ _ _ k =>
      simp [applyFsOp, mapLookup_insert, mapLookup_remove, hne, Ne.symm hne, hold]
    | step _ _ _ _ hr2 =>
      cases hr2 with
      | here =>
        simp [applyFsOp, mapLookup_insert, mapLookup_remove, hne, Ne.symm hne, hold]
      | midWrite _ _ _ _ k =>
        simp [applyFsOp, mapLookup_insert, mapLookup_remove, hne, Ne.symm hne, hold]
      | step _ _ _ _ hr3 =>
        cases hr3 with
        | here =>
          simp [applyFsOp, mapLookup_insert, mapLookup_remove, hne, Ne.symm hne, hold]
        | step _ _ _ _ hr4 =>
          cases hr4 with
          | here =>
            simp [applyFsOp, mapLookup_insert, mapLookup_remove, hne, Ne.symm hne,
              hold]
          | step _ _ _ _ hr5 =>
            cases hr5 with
            | here =>
              simp [applyFsOp, mapLookup_insert, mapLookup_remove, hne, Ne.symm hne,
                hold]
            | step _ _ _ _ hr6 =>
              cases hr6 with
              | here =>
                simp [applyFsOp, mapLookup_insert, mapLookup_remove, hne,
                  Ne.symm hne, hold]
  · simp [saveToFile, saveToFileOps, hnone]

theorem c4_crash_states_amended_witness :
    mapLookup [("f", "OLD")] "f" = some "OLD" ∧
    ("t" : String) ≠ "f" ∧
    mapLookup ([] : List (String × String)) "f" = none ∧
    (mapLookup ({ files := [("f", "OLD")], dirs := [] } : Fs).files "f" = some "OLD" ∨
      mapLookup ({ files := [("f", "OLD")], dirs := [] } : Fs).files "f" = none ∨
      mapLookup ({ files := [("f", "OLD")], dirs := [] } : Fs).files "f" =
        some "NEW") ∧
    (saveToFile { files := [], dirs := [] } "t" "f" "NEW").2 =
      [.writeFile "f" "NEW"] := by
  have hc := c4_crash_states_amended { files := [("f", "OLD")], dirs := [] }
    "t" "f" "NEW" "OLD" { files := [("f", "OLD")], dirs := [] }
    { files := [], dirs := [] } rfl (by decide) rfl (CrashReach.here _ _)
  exact ⟨rfl, by decide, rfl, hc.1, hc.2⟩

end KubeMachine
